import Mathlib

set_option maxRecDepth 2000000

/-!
Verification development for the Maharashtra scholarship chatbot backend
(`main.py`).  The Python source is shallowly embedded below: each Python
function used by the specification claims is translated into an executable
Lean definition over `List Char` / `String`, and the claims are settled as
theorems about those definitions.

Modelling conventions (the embedding is scoped to the program's actual
inputs, which are ASCII text):
* Python strings are `String` / `List Char`; `str.lower`, `str.strip`,
  `str.split` are modelled on the ASCII whitespace/letter sets, which is
  what Python produces on the program's ASCII keyword tables and inputs.
* Python `re` patterns are embedded via a small regex AST (`Rx`) with an
  exploration-ordered backtracking matcher (`matchEnds`) that mirrors
  Python's leftmost / greedy / first-alternative semantics, including
  word boundaries (`\b`) and anchors.
* Python `float` scores are modelled as exact rationals (the pair type
  `Q` below, kept unnormalised so the kernel can evaluate them); every
  weight and multiplier in the source is a short decimal, and no
  comparison in the analysed executions is close enough for the
  float/rational distinction to matter.
* The NLTK WordNet lemmatizer (an external corpus-backed library, not
  repository code) is modelled by `lemmaWord`, a finite table holding its
  noun-lemmatization behaviour on the program's keyword vocabulary and on
  the inputs analysed here; all other words are fixed points, matching
  WordNet's behaviour on out-of-vocabulary tokens.
-/

/-! ## Basic character and list helpers (Python `str` fragment) -/

/-- ASCII whitespace, as recognised by Python's `str.strip`/`str.split`
and by `re`'s `\s` on ASCII text. -/
def isWs (c : Char) : Bool :=
  c = ' ' || c = '\t' || c = '\n' || c = '\r' || c = '\x0b' || c = '\x0c'

/-- Word characters for `re`'s `\b` (ASCII fragment: `[A-Za-z0-9_]`). -/
def isWordChar (c : Char) : Bool :=
  c.isAlphanum || c = '_'

/-- ASCII fragment of Python's `str.lower`: map `A`-`Z` to `a`-`z`. -/
def pyLower (c : Char) : Char :=
  if c.isUpper then Char.ofNat (c.toNat + 32) else c

/-- Python `str.lstrip()` on a character list. -/
def lstripL (l : List Char) : List Char := l.dropWhile isWs

/-- Python `str.rstrip()` on a character list. -/
def rstripL (l : List Char) : List Char := (l.reverse.dropWhile isWs).reverse

/-- Python `str.strip()` on a character list. -/
def stripL (l : List Char) : List Char := rstripL (lstripL l)

/-- Helper for `splitWsL`: `cur` is the reversed current word. -/
def splitWsGo (cur : List Char) : List Char → List (List Char)
  | [] => if cur.isEmpty then [] else [cur.reverse]
  | c :: rest =>
    if isWs c then
      if cur.isEmpty then splitWsGo [] rest else cur.reverse :: splitWsGo [] rest
    else
      splitWsGo (c :: cur) rest

/-- Python `str.split()` (split on whitespace runs, dropping empty parts). -/
def splitWsL (l : List Char) : List (List Char) := splitWsGo [] l

/-- Whether `pat` occurs as a contiguous substring (Python's `in`). -/
def containsL (hay pat : List Char) : Bool :=
  (List.range (hay.length + 1)).any (fun i => (hay.drop i).take pat.length == pat)

/-- String-level wrappers. -/
def pyStrip (s : String) : String := ⟨stripL s.data⟩

def pyLowerS (s : String) : String := ⟨s.data.map pyLower⟩

def containsS (hay pat : String) : Bool := containsL hay.data pat.data

def splitWsS (s : String) : List String := (splitWsL s.data).map (⟨·⟩)

/-! ## A small regex engine mirroring Python `re` on the source's patterns

`matchEnds s fuel r i` returns the possible end positions of a match of
`r` at position `i` of `s`, in Python's backtracking exploration order
(greedy repetition first, left alternative first); the head of the list
is the end position Python's engine reports.  `fuel` bounds `*`
unrollings; every starred sub-pattern in the source consumes at least one
character per iteration, so `s.length + 1` fuel is always sufficient. -/

inductive Rx where
  | fail
  | eps
  | lit (c : Char)
  | cls (p : Char → Bool)
  | seq (a b : Rx)
  | alt (a b : Rx)
  | opt (r : Rx)
  | star (r : Rx)
  | bnd
  | bos
  | eos

/-- Is the character at position `i` a word character (false past the end)? -/
def isWordAt (s : List Char) (i : Nat) : Bool :=
  match s.get? i with
  | some c => isWordChar c
  | none => false

/-- Python `\b`: exactly one of the two neighbouring positions is a word char. -/
def wordBoundary (s : List Char) (i : Nat) : Bool :=
  (if i = 0 then false else isWordAt s (i - 1)) != isWordAt s i

/-- Greedy-first end positions of `r*` at `i`, where `ends1` gives the
end positions of one `r` match (longer iterations explored first, the
empty iteration last, zero-width iterations discarded). -/
def starEnds (ends1 : Nat → List Nat) : Nat → Nat → List Nat
  | 0, i => [i]
  | f + 1, i =>
    (((ends1 i).filter (fun j => i < j)).map (starEnds ends1 f)).flatten ++ [i]

def matchEnds (s : List Char) (fuel : Nat) : Rx → Nat → List Nat
  | .fail, _ => []
  | .eps, i => [i]
  | .lit c, i =>
    match s.get? i with
    | some d => if d = c then [i + 1] else []
    | none => []
  | .cls p, i =>
    match s.get? i with
    | some d => if p d then [i + 1] else []
    | none => []
  | .seq a b, i => ((matchEnds s fuel a i).map (matchEnds s fuel b)).flatten
  | .alt a b, i => matchEnds s fuel a i ++ matchEnds s fuel b i
  | .opt r, i => matchEnds s fuel r i ++ [i]
  | .star r, i => starEnds (matchEnds s fuel r) fuel i
  | .bnd, i => if wordBoundary s i then [i] else []
  | .bos, i => if i = 0 then [i] else []
  | .eos, i => if i = s.length then [i] else []

/-- Python `re.search` as a Boolean: some match starts at some position. -/
def searchB (s : List Char) (r : Rx) : Bool :=
  (List.range (s.length + 1)).any (fun i => !(matchEnds s (s.length + 1) r i).isEmpty)

/-- Leftmost match: first start position admitting a match, together with
the end position Python's backtracking engine reports (head of the
exploration-ordered end list). -/
def searchFirst (s : List Char) (r : Rx) : Option (Nat × Nat) :=
  match (List.range (s.length + 1)).filter
      (fun i => !(matchEnds s (s.length + 1) r i).isEmpty) with
  | [] => none
  | i :: _ =>
    match matchEnds s (s.length + 1) r i with
    | [] => none
    | e :: _ => some (i, e)

/-- Literal word as a regex. -/
def rstrL (w : List Char) : Rx := w.foldr (fun c r => .seq (.lit c) r) .eps

def rstr (w : String) : Rx := rstrL w.data

/-- First-alternative-first alternation of a list of regexes. -/
def ralts (l : List Rx) : Rx := l.foldr .alt .fail

/-- Alternation of literal words. -/
def rwords (l : List String) : Rx := ralts (l.map rstr)

/-- Pattern `\s*`. -/
def rwsStar : Rx := .star (.cls isWs)

/-- Pattern `\d`. -/
def rdigit : Rx := .cls Char.isDigit

/-- Pattern `\d+`. -/
def rdigits : Rx := .seq rdigit (.star rdigit)

/-- Pattern `\d+\.?\d*`. -/
def rdecimal : Rx := .seq rdigits (.seq (.opt (.lit '.')) (.star rdigit))

/-- Pattern `.` (any character except a newline). -/
def rdot : Rx := .cls (fun c => c ≠ '\n')

/-- Pattern `.*`. -/
def rdotStar : Rx := .star rdot

/-! ## Slot extractor (`extract_user_details`, main.py lines 64-146) -/

/-- Pattern `\b(w1|w2|...)\b` for literal alternatives. -/
def bword (ws : List String) : Rx := .seq .bnd (.seq (rwords ws) .bnd)

/-- Pattern `word\s*digit` (the `option\s*1` style alternatives). -/
def optNum (w : String) (d : Char) : Rx := .seq (rstr w) (.seq rwsStar (.lit d))

def rxCasteSc : Rx := bword ["sc", "scheduled caste"]
def rxCasteSt : Rx := bword ["st", "scheduled tribe"]
def rxCasteObc : Rx := bword ["obc", "other backward class"]
def rxCasteGeneral : Rx := bword ["general", "open"]
def rxCasteMinority : Rx :=
  bword ["minority", "muslim", "christian", "sikh", "jain", "parsi", "buddhist"]

/-- Pattern `lakh|lacs?|k|thousand`. -/
def rxUnitLong : Rx :=
  ralts [rstr "lakh", .seq (rstr "lac") (.opt (.lit 's')), rstr "k", rstr "thousand"]

/-- Pattern `lakh|lacs?`. -/
def rxUnitShort : Rx := ralts [rstr "lakh", .seq (rstr "lac") (.opt (.lit 's'))]

/-- Python: `\b(?:income|family income)\s*(?:is|of)?\s*(?:below|under|\d+\.?\d*\s*(?:lakh|lacs?|k|thousand)?|\d+\s*to\s*\d+\.?\d*\s*(?:lakh|lacs?))\b` -/
def rxIncome : Rx :=
  .seq .bnd (.seq (rwords ["income", "family income"])
    (.seq rwsStar (.seq (.opt (rwords ["is", "of"]))
      (.seq rwsStar (.seq (ralts
        [rstr "below",
         rstr "under",
         .seq rdecimal (.seq rwsStar (.opt rxUnitLong)),
         .seq rdigits (.seq rwsStar (.seq (rstr "to")
           (.seq rwsStar (.seq rdecimal (.seq rwsStar rxUnitShort)))))])
        .bnd)))))

def rxFemale : Rx := bword ["girl", "female", "woman"]
def rxMale : Rx := bword ["boy", "male", "man"]

/-- Python: `b\.?sc\.?\s*(?:cs|computer science)?` -/
def rxBDotSc : Rx :=
  .seq (.lit 'b') (.seq (.opt (.lit '.')) (.seq (rstr "sc")
    (.seq (.opt (.lit '.')) (.seq rwsStar (.opt (rwords ["cs", "computer science"]))))))

def rxCourseUg : Rx :=
  .seq .bnd (.seq (ralts
    [rstr "bsc", rstr "ba", rstr "be", rstr "btech", rstr "bcom",
     rstr "undergraduate", rstr "1st year", rstr "2nd year", rstr "3rd year",
     rxBDotSc]) .bnd)

def rxCoursePg : Rx := bword ["msc", "ma", "mtech", "mcom", "postgraduate", "master"]

def rxHostelYes : Rx := bword ["hostel", "staying in hostel", "hosteller"]
def rxHostelNo : Rx := bword ["not in hostel", "day scholar"]

/-- The part of the cgpa pattern after the capture group:
`\s*(?:cgpa|percentage|percent|marks)\b` -/
def rxCgpaRest : Rx :=
  .seq rwsStar (.seq (rwords ["cgpa", "percentage", "percent", "marks"]) .bnd)

def rxDisability : Rx := bword ["disability", "disabled", "handicap"]
def rxExServ : Rx := bword ["ex-serviceman", "freedom fighter", "parent is ex-serviceman"]

def rxSchGov : Rx :=
  .seq .bnd (.seq (ralts
    [rstr "government", rstr "govt", rstr "mahadbt", rstr "nsp",
     rstr "national scholarship", optNum "option" '1', optNum "choose" '1',
     optNum "select" '1', .lit '1']) .bnd)

def rxSchPriv : Rx :=
  .seq .bnd (.seq (ralts
    [rstr "private", rstr "buddy4study", rstr "vidyasaarathi",
     optNum "option" '2', optNum "choose" '2', optNum "select" '2', .lit '2']) .bnd)

def rxSchNgo : Rx :=
  .seq .bnd (.seq (ralts
    [rstr "ngo", rstr "non-profit", rstr "charity",
     optNum "option" '3', optNum "choose" '3', optNum "select" '3', .lit '3']) .bnd)

def rxSchCollege : Rx :=
  .seq .bnd (.seq (ralts
    [rstr "college", rstr "university", rstr "mumbai university",
     rstr "pune university",
     optNum "option" '4', optNum "choose" '4', optNum "select" '4', .lit '4']) .bnd)

/-- Numeric value of a digit list. -/
def digitsVal (l : List Char) : Nat :=
  l.foldl (fun a c => a * 10 + (c.toNat - '0'.toNat)) 0

/-- Exact rationals as numerator/denominator pairs with positive
denominators (not normalised; all arithmetic is exact cross
multiplication).  Python's float scores are modelled by these exact
decimal values: every constant in the source is a short decimal and no
comparison performed in this development is anywhere near the float
rounding error. -/
structure Q where
  num : Int
  den : Int
deriving Repr, DecidableEq

def qmul (a b : Q) : Q := ⟨a.num * b.num, a.den * b.den⟩

def qadd (a b : Q) : Q := ⟨a.num * b.den + b.num * a.den, a.den * b.den⟩

/-- Multiply by a natural count. -/
def qscale (a : Q) (n : Nat) : Q := ⟨a.num * n, a.den⟩

/-- Strict comparison (denominators are positive by construction). -/
def qlt (a b : Q) : Bool := a.num * b.den < b.num * a.den

/-- Value of a `Q` as a Mathlib rational, for stating score facts. -/
def qVal (a : Q) : ℚ := (a.num : ℚ) / (a.den : ℚ)

/-- Value of a `\d+\.?\d*` literal as an exact rational.  (Python converts
the captured text with `float`; the numerals in play are short decimals,
modelled here exactly.) -/
def parseDec (l : List Char) : Q :=
  let ip := l.takeWhile Char.isDigit
  let rest := l.drop ip.length
  let fp := (rest.dropWhile (fun c => c = '.')).takeWhile Char.isDigit
  ⟨(digitsVal ip : Int) * ((10 : Int) ^ fp.length) + (digitsVal fp : Int),
   (10 : Int) ^ fp.length⟩

/-- Capture `group(1)` of a pattern of the form `\b(g1)rest`: leftmost match,
then the first end of `g1` (in backtracking order) that lets `rest`
match, exactly as Python's engine commits to group extents. -/
def group1AfterBnd (s : List Char) (g1 rest : Rx) : Option (List Char) :=
  match searchFirst s (.seq .bnd (.seq g1 rest)) with
  | none => none
  | some (i, _) =>
    match (matchEnds s (s.length + 1) g1 i).filter
        (fun e => !(matchEnds s (s.length + 1) rest e).isEmpty) with
    | [] => none
    | e :: _ => some ((s.drop i).take (e - i))

/-- The extraction result: every field of the Python `details` dict.
`cgpa` holds the `float` of the captured literal, modelled as an exact
rational. -/
structure Details where
  caste : Option String
  income : Option String
  gender : Option String
  course_level : Option String
  is_hostel : Option Bool
  cgpa : Option Q
  is_minority : Option Bool
  has_disability : Option Bool
  ex_serviceman_parent : Option Bool
  scholarship_type : Option String
deriving Repr, DecidableEq

/-- Caste loop: dict order sc, st, obc, general, minority; first match wins. -/
def casteOf (n : List Char) : Option String :=
  if searchB n rxCasteSc then some "sc"
  else if searchB n rxCasteSt then some "st"
  else if searchB n rxCasteObc then some "obc"
  else if searchB n rxCasteGeneral then some "general"
  else if searchB n rxCasteMinority then some "minority"
  else none

/-- Field `is_minority` is set (to True) only when the winning caste is `minority`. -/
def isMinorityOf (n : List Char) : Option Bool :=
  if casteOf n = some "minority" then some true else none

/-- Python `income_match.group(0)`: the whole matched text. -/
def incomeOf (n : List Char) : Option String :=
  match searchFirst n rxIncome with
  | some (i, e) => some ⟨(n.drop i).take (e - i)⟩
  | none => none

def genderOf (n : List Char) : Option String :=
  if searchB n rxFemale then some "female"
  else if searchB n rxMale then some "male"
  else none

def courseOf (n : List Char) : Option String :=
  if searchB n rxCourseUg then some "ug"
  else if searchB n rxCoursePg then some "pg"
  else none

def hostelOf (n : List Char) : Option Bool :=
  if searchB n rxHostelYes then some true
  else if searchB n rxHostelNo then some false
  else none

def cgpaOf (n : List Char) : Option Q :=
  (group1AfterBnd n rdecimal rxCgpaRest).map parseDec

def disabilityOf (n : List Char) : Option Bool :=
  if searchB n rxDisability then some true else none

def exServOf (n : List Char) : Option Bool :=
  if searchB n rxExServ then some true else none

/-- Scholarship-type loop: dict order government, private, ngo, college;
first match wins. -/
def schTypeOf (n : List Char) : Option String :=
  if searchB n rxSchGov then some "government"
  else if searchB n rxSchPriv then some "private"
  else if searchB n rxSchNgo then some "ngo"
  else if searchB n rxSchCollege then some "college"
  else none

/-- Normalisation at the top of `extract_user_details`:
`user_input.lower().strip()`. -/
def normLS (s : String) : List Char := stripL (s.data.map pyLower)

/-- Python `extract_user_details` (main.py lines 64-146). -/
def extract_user_details (s : String) : Details :=
  let n := normLS s
  { caste := casteOf n
    income := incomeOf n
    gender := genderOf n
    course_level := courseOf n
    is_hostel := hostelOf n
    cgpa := cgpaOf n
    is_minority := isMinorityOf n
    has_disability := disabilityOf n
    ex_serviceman_parent := exServOf n
    scholarship_type := schTypeOf n }

/-! ## Intent classifier (`analyze_query_type`, main.py lines 148-318) -/

/-- Finite model of NLTK's `WordNetLemmatizer().lemmatize` (noun mode,
the source's default).  The table records WordNet's noun lemmatization
on the vocabulary occurring in the source's keyword lists and in the
inputs analysed in this development; every other word is a fixed point,
which is also WordNet morphy's behaviour on out-of-vocabulary tokens. -/
def lemmaWord (w : String) : String :=
  if w = "capabilities" then "capability"
  else if w = "does" then "doe"
  else if w = "scholarships" then "scholarship"
  else if w = "types" then "type"
  else if w = "kinds" then "kind"
  else if w = "categories" then "category"
  else if w = "providers" then "provider"
  else if w = "fees" then "fee"
  else if w = "is" then "i"
  else if w = "as" then "a"
  else w

/-- Python `lemmatize_text` (main.py lines 60-62): split on whitespace,
lemmatize each word, re-join with single spaces. -/
def lemmatize_text (s : String) : String :=
  String.intercalate " " ((splitWsS s).map lemmaWord)

/-- The intent keyword table (main.py lines 153-219), in dict insertion
order, with the raw (un-lemmatized) keywords and weights. -/
def intentKeywords : List (String × List String × Q) :=
  [("greeting",
    ["hi", "hello", "hey", "namaste", "good morning", "good afternoon",
     "good evening"], ⟨10, 10⟩),
   ("bot_info",
    ["what can you do", "what do you do", "how can you help",
     "tell me about yourself", "who are you", "what are you",
     "your capabilities", "help me", "about this chatbot"], ⟨9, 10⟩),
   ("bot_functionality",
    ["how does this work", "how do you work", "how to use this chatbot",
     "how you find scholarships", "how does it work", "explain how you work",
     "how to get scholarship through you"], ⟨9, 10⟩),
   ("casual",
    ["how are you", "what's up", "how is your day", "tell me a joke",
     "thank you", "thanks", "okay", "ok", "yes", "no", "maybe",
     "i am fine", "good", "nice", "cool", "awesome", "great"], ⟨7, 10⟩),
   ("scholarship_query",
    ["scholarship", "financial aid", "education loan", "study help", "fees",
     "grant", "mahadbt", "nsp", "government scheme", "tuition fee",
     "hostel allowance", "eligibility", "application", "deadline",
     "scholarship list", "available scholarships"], ⟨95, 100⟩),
   ("scholarship_personalized",
    ["i am", "i'm", "my category", "my income", "student", "bsc", "msc",
     "engineering", "medical", "college", "university", "sc", "st", "obc",
     "general", "low income", "merit", "find scholarship",
     "scholarship for me", "looking for scholarship", "need scholarship"], ⟨11, 10⟩),
   ("scholarship_types",
    ["scholarship types", "types of scholarships", "government scholarship",
     "private scholarship", "ngo scholarship", "college scholarship",
     "university scholarship", "mahadbt", "buddy4study", "mumbai university",
     "scholarship providers", "kinds of scholarships",
     "scholarship categories"], ⟨10, 10⟩),
   ("scholarship_type_selection",
    ["government", "govt", "private", "ngo", "college", "university",
     "mahadbt", "buddy4study", "national scholarship", "vidyasaarathi",
     "mumbai university", "pune university",
     "option 1", "choose 1", "select 1", "1",
     "option 2", "choose 2", "select 2", "2",
     "option 3", "choose 3", "select 3", "3",
     "option 4", "choose 4", "select 4", "4"], ⟨15, 10⟩),
   ("general_conversation", [], ⟨5, 10⟩)]

/-- The lemmatized keyword table (main.py lines 221-227). -/
def lemmatizedKeywords : List (String × List String × Q) :=
  intentKeywords.map (fun e => (e.1, e.2.1.map lemmatize_text, e.2.2))

def rxQuestion1 : Rx :=
  .seq .bos (.seq (rwords ["what", "how", "where", "when", "why", "who",
    "can you", "tell me"]) .bnd)

def rxQuestion2 : Rx := .seq rdotStar (.seq (.lit '?') .eos)

/-- Pattern `\bi(?:'m| am)\b.*(student|category|income|scholarship)`. -/
def rxPers1 : Rx :=
  .seq .bnd (.seq (.lit 'i') (.seq (ralts [rstr "'m", rstr " am"])
    (.seq .bnd (.seq rdotStar
      (rwords ["student", "category", "income", "scholarship"])))))

/-- Pattern `\bmy (category|income|course|degree)\b`. -/
def rxPers2 : Rx :=
  .seq .bnd (.seq (rstr "my ")
    (.seq (rwords ["category", "income", "course", "degree"]) .bnd))

/-- Pattern `\b(sc|st|obc|general)\b.*scholarship`. -/
def rxPers3 : Rx :=
  .seq .bnd (.seq (rwords ["sc", "st", "obc", "general"])
    (.seq .bnd (.seq rdotStar (rstr "scholarship"))))

/-- Pattern `\b(type|kind|category|categories|source|provider).*(scholarship|grants)\b`. -/
def rxTypes1 : Rx :=
  .seq .bnd (.seq (rwords ["type", "kind", "category", "categories",
    "source", "provider"]) (.seq rdotStar
      (.seq (rwords ["scholarship", "grants"]) .bnd)))

/-- Pattern `\b(government|private|ngo|college|university|mahadbt|buddy4study|mumbai university)\b.*scholarship`. -/
def rxTypes2 : Rx :=
  .seq .bnd (.seq (rwords ["government", "private", "ngo", "college",
    "university", "mahadbt", "buddy4study", "mumbai university"])
    (.seq .bnd (.seq rdotStar (rstr "scholarship"))))

/-- Pattern `\bwhat (type|kind|category|categories).*(scholarship|grants)\b`. -/
def rxTypes3 : Rx :=
  .seq .bnd (.seq (rstr "what ")
    (.seq (rwords ["type", "kind", "category", "categories"])
      (.seq rdotStar (.seq (rwords ["scholarship", "grants"]) .bnd))))

/-- Pattern `\bscholarship.*(type|kind|category|categories|source|provider)\b`. -/
def rxTypes4 : Rx :=
  .seq .bnd (.seq (rstr "scholarship") (.seq rdotStar
    (.seq (rwords ["type", "kind", "category", "categories", "source",
      "provider"]) .bnd)))

/-- Pattern `\b(government|govt|private|ngo|college|university|mahadbt|buddy4study|nsp|vidyasaarathi|mumbai university|pune university)\b`. -/
def rxSel1 : Rx :=
  bword ["government", "govt", "private", "ngo", "college", "university",
    "mahadbt", "buddy4study", "nsp", "vidyasaarathi", "mumbai university",
    "pune university"]

/-- Pattern `^(option|choose|select)\s*[1-4]$`. -/
def rxSel2 : Rx :=
  .seq .bos (.seq (rwords ["option", "choose", "select"])
    (.seq rwsStar (.seq (.cls (fun c => c = '1' || c = '2' || c = '3' || c = '4'))
      .eos)))

/-- Pattern `^\d$`. -/
def rxSel3 : Rx := .seq .bos (.seq rdigit .eos)

def negationKeywords : List String := ["not", "no", "don't", "doesn't"]

/-- Phrase score (main.py lines 257-260): the weight once for every
keyword phrase occurring as a substring of the lemmatized input. -/
def phraseScore (lem : String) (ks : List String) (w : Q) : Q :=
  qscale w (ks.filter (fun k => containsS lem k)).length

/-- Whole-token bonus (main.py lines 262-265): half the weight again for
every single-word keyword present as a whole token. -/
def tokenScore (toks : List String) (ks : List String) (w : Q) : Q :=
  qscale (qmul w ⟨5, 10⟩)
    (ks.filter (fun k => (splitWsS k).length = 1 && toks.contains k)).length

/-- Number of keywords of intent `name` present as substrings of the
lemmatized input (the density counts, main.py lines 296-309). -/
def keywordHits (lem : String) (name : String) : Nat :=
  match lemmatizedKeywords.find? (fun e => e.1 = name) with
  | some e => (e.2.1.filter (fun k => containsS lem k)).length
  | none => 0

/-- The per-intent scores after all boosts, in dict order
(main.py lines 255-309).  `s` is the raw input string. -/
def intentScores (s : String) : List (String × Q) :=
  let lower : String := ⟨stripL (s.data.map pyLower)⟩
  let lem : String := lemmatize_text lower
  let toks : List String := splitWsS lem
  let base : List (String × Q) :=
    lemmatizedKeywords.map (fun e =>
      (e.1, qadd (phraseScore lem e.2.1 e.2.2) (tokenScore toks e.2.1 e.2.2)))
  let isQuestion : Bool := searchB lower.data rxQuestion1 || searchB lower.data rxQuestion2
  let isPersonalized : Bool :=
    searchB lower.data rxPers1 || searchB lower.data rxPers2 || searchB lower.data rxPers3
  let isTypes : Bool :=
    searchB lower.data rxTypes1 || searchB lower.data rxTypes2 ||
    searchB lower.data rxTypes3 || searchB lower.data rxTypes4
  let isSel : Bool :=
    searchB lower.data rxSel1 || searchB lower.data rxSel2 || searchB lower.data rxSel3
  let hasNeg : Bool := negationKeywords.any (fun k => containsS lem k)
  let short : Bool := (splitWsS s).length ≤ 2
  let persHits : Nat := keywordHits lem "scholarship_personalized"
  let typesHits : Nat := keywordHits lem "scholarship_types"
  let selHits : Nat := keywordHits lem "scholarship_type_selection"
  base.map (fun e =>
    let name := e.1
    let v0 := e.2
    let v1 := if isQuestion &&
        (name = "scholarship_query" || name = "bot_info" ||
         name = "bot_functionality" || name = "scholarship_types")
      then qmul v0 ⟨12, 10⟩ else v0
    let v2 := if isPersonalized && name = "scholarship_personalized"
      then qmul v1 ⟨15, 10⟩ else v1
    let v3 := if isTypes && name = "scholarship_types" then qmul v2 ⟨15, 10⟩ else v2
    let v4 := if isSel && name = "scholarship_type_selection"
      then qmul v3 ⟨25, 10⟩ else v3
    let v5 := if hasNeg &&
        (name = "scholarship_query" || name = "scholarship_personalized" ||
         name = "scholarship_types" || name = "scholarship_type_selection")
      then qmul v4 ⟨5, 10⟩ else v4
    let v6 := if short && name = "casual" then qadd v5 ⟨10, 10⟩ else v5
    let v7 := if short && name = "general_conversation" then qmul v6 ⟨8, 10⟩ else v6
    let v8 := if persHits ≥ 3 && name = "scholarship_personalized"
      then qmul v7 ⟨13, 10⟩ else v7
    let v9 := if typesHits ≥ 2 && name = "scholarship_types" then qmul v8 ⟨13, 10⟩ else v8
    let v10 := if selHits ≥ 1 && name = "scholarship_type_selection"
      then qmul v9 ⟨18, 10⟩ else v9
    (name, v10))

/-- Python `max(d, key=d.get)`: first key attaining the maximum, in dict
order. -/
def argmaxScores (l : List (String × Q)) : String × Q :=
  match l with
  | [] => ("general_conversation", ⟨0, 1⟩)
  | e :: rest => rest.foldl (fun best x => if qlt best.2 x.2 then x else best) e

/-- Python `analyze_query_type` (main.py lines 148-318). -/
def analyze_query_type (s : String) : String :=
  let best := argmaxScores (intentScores s)
  if qlt best.2 ⟨5, 10⟩ then "general_conversation" else best.1

/-! ## Response post-processor (`format_response`, main.py lines 576-583)

The four `re`/string steps are embedded as single-pass list transforms
with the exact semantics of the Python calls:
1. `re.sub(r'\n{3,}', '\n\n', text)`
2. `re.sub(r'(#{1,6})\s*([^\n]+)', r'\1 \2', text)`
3. `re.sub(r'^\s*[•·]\s*', '• ', text, flags=re.MULTILINE)`
4. split on `'\n'`, `rstrip` each line, re-join, then `strip()`.
-/

/-- Step 1 scanner; `n` counts the pending newline run. -/
def collapseGo : Nat → List Char → List Char
  | n, [] => List.replicate (min n 2) '\n'
  | n, c :: rest =>
    if c = '\n' then collapseGo (n + 1) rest
    else List.replicate (min n 2) '\n' ++ c :: collapseGo 0 rest

/-- Python `re.sub(r'\n{3,}', '\n\n', text)`: every newline run of length ≥ 3
becomes exactly two newlines. -/
def collapseNl (l : List Char) : List Char := collapseGo 0 l

/-- Match `\s*([^\n]+)` at the head of `r`, with Python's greedy
backtracking: `\s*` takes the longest whitespace prefix that still leaves
a non-newline character for the group.  Returns `(group2, remainder)`. -/
def wsG2 (r : List Char) : Option (List Char × List Char) :=
  match r.dropWhile isWs with
  | c :: rest2 =>
    some ((c :: rest2).takeWhile (fun d => d ≠ '\n'),
          (c :: rest2).dropWhile (fun d => d ≠ '\n'))
  | [] =>
    let W := r.takeWhile isWs
    let U := (W.reverse.dropWhile (fun d => d = '\n')).reverse
    match U.getLast? with
    | some c => some ([c], List.replicate (W.length - U.length) '\n')
    | none => none

/-- Attempt `(#{1,6})\s*([^\n]+)` at the head of `l` (which starts with
`#`).  On success returns the replacement `\1 \2` and the unconsumed
remainder.  When everything after the hashes is newlines/nothing, Python
backtracks the greedy `#{1,6}` by one and the last hash becomes the
group-2 text; a single lone `#` does not match at all. -/
def tryHeading (l : List Char) : Option (List Char × List Char) :=
  let run := l.takeWhile (fun c => c = '#')
  let k := min run.length 6
  let r := l.drop k
  match wsG2 r with
  | some (g2, rem) => some (List.replicate k '#' ++ ' ' :: g2, rem)
  | none => if 2 ≤ k then some (List.replicate (k - 1) '#' ++ [' ', '#'], r) else none

/-- Step 2 scanner (fuel decreases by one per emitted/consumed position;
`l.length` fuel is always sufficient). -/
def headingGo : Nat → List Char → List Char
  | 0, l => l
  | _, [] => []
  | fuel + 1, c :: rest =>
    if c = '#' then
      match tryHeading (c :: rest) with
      | some (rep, rem) => rep ++ headingGo fuel rem
      | none => c :: headingGo fuel rest
    else c :: headingGo fuel rest

/-- Python `re.sub(r'(#{1,6})\s*([^\n]+)', r'\1 \2', text)`. -/
def headingSub (l : List Char) : List Char := headingGo l.length l

/-- Attempt `^\s*[•·]\s*` at the head of `l` (an `^` position): longest
whitespace prefix, then a bullet glyph, then all following whitespace.
Returns whether the next scan position is again a line start (the last
swallowed character was a newline) and the remainder. -/
def tryBullet (l : List Char) : Option (Bool × List Char) :=
  match l.dropWhile isWs with
  | c :: rest =>
    if c = '•' || c = '·' then
      some ((match (rest.takeWhile isWs).getLast? with
             | some '\n' => true | _ => false),
            rest.dropWhile isWs)
    else none
  | [] => none

/-- Step 3 scanner; `atStart` tracks MULTILINE `^` positions. -/
def bulletGo : Nat → Bool → List Char → List Char
  | 0, _, l => l
  | _, _, [] => []
  | fuel + 1, atStart, c :: rest =>
    if atStart then
      match tryBullet (c :: rest) with
      | some (st, rem) => '•' :: ' ' :: bulletGo fuel st rem
      | none => c :: bulletGo fuel (c = '\n') rest
    else c :: bulletGo fuel (c = '\n') rest

/-- Python `re.sub(r'^\s*[•·]\s*', '• ', text, flags=re.MULTILINE)`. -/
def bulletSub (l : List Char) : List Char := bulletGo l.length true l

/-- Step 4 scanner: right-trim every `'\n'`-separated line.  `pend`
buffers non-newline whitespace, which is dropped at a line end and
flushed before any other character; this is exactly
`'\n'.join(line.rstrip() for line in text.split('\n'))`. -/
def rstripGo (pend : List Char) : List Char → List Char
  | [] => []
  | c :: rest =>
    if c = '\n' then '\n' :: rstripGo [] rest
    else if isWs c then rstripGo (pend ++ [c]) rest
    else pend ++ c :: rstripGo [] rest

def rstripLines (l : List Char) : List Char := rstripGo [] l

/-- Python `format_response` (main.py lines 576-583). -/
def format_response (s : String) : String :=
  ⟨stripL (rstripLines (bulletSub (headingSub (collapseNl s.data))))⟩

/-! ## Input validation and the `/chat` route (main.py lines 585-723)

The route is modelled as a state transformer on the single stored
`UserDetails` row.  External effects that the route only consumes are
parameters: whether `GEMINI_API_KEY` is configured, whether the
`db.session.commit()` raises, and the outcome of the outbound Gemini
call.  The `timestamp` column and the composed prompt text are not
modelled: no claim concerns them, the prompt is a pure string built by
`create_scholarship_prompt` with no state effects, and the timestamp is
wall-clock time. -/

/-- Python `validate_input` (main.py lines 585-595): `(is_valid, stripped-or-error)`. -/
def validate_input (q : String) : Bool × String :=
  if q.data = [] ∨ stripL q.data = [] then
    (false, "Please provide a valid query")
  else if (stripL q.data).length < 3 then
    (false, "Query too short. Please provide more details")
  else if q.data.length > 1000 then
    (false, "Query too long. Please keep it under 1000 characters")
  else (true, ⟨stripL q.data⟩)

/-- The single persisted `UserDetails` row (timestamp omitted, see above). -/
structure StoredUser where
  query : String
  caste : Option String
  income : Option String
  gender : Option String
  course_level : Option String
  is_hostel : Option Bool
  cgpa : Option Q
  is_minority : Option Bool
  has_disability : Option Bool
  ex_serviceman_parent : Option Bool
  scholarship_type : Option String
deriving Repr, DecidableEq

/-- The merge loop on an existing row (main.py lines 621-626):
`query` is overwritten, and each extracted field overwrites the stored
one only when it is non-`None`. -/
def updField {α : Type} (old new : Option α) : Option α :=
  match new with
  | some v => some v
  | none => old

def mergeUser (u : StoredUser) (q : String) (d : Details) : StoredUser :=
  { query := q
    caste := updField u.caste d.caste
    income := updField u.income d.income
    gender := updField u.gender d.gender
    course_level := updField u.course_level d.course_level
    is_hostel := updField u.is_hostel d.is_hostel
    cgpa := updField u.cgpa d.cgpa
    is_minority := updField u.is_minority d.is_minority
    has_disability := updField u.has_disability d.has_disability
    ex_serviceman_parent := updField u.ex_serviceman_parent d.ex_serviceman_parent
    scholarship_type := updField u.scholarship_type d.scholarship_type }

/-- Creation of a fresh row (main.py lines 630-643). -/
def freshUser (q : String) (d : Details) : StoredUser :=
  { query := q
    caste := d.caste
    income := d.income
    gender := d.gender
    course_level := d.course_level
    is_hostel := d.is_hostel
    cgpa := d.cgpa
    is_minority := d.is_minority
    has_disability := d.has_disability
    ex_serviceman_parent := d.ex_serviceman_parent
    scholarship_type := d.scholarship_type }

/-- The create-or-merge step of the route's DB section. -/
def upsertUser (db : Option StoredUser) (q : String) (d : Details) : StoredUser :=
  match db with
  | some u => mergeUser u q d
  | none => freshUser q d

/-- The intents for which the route touches the profile store
(main.py line 619). -/
def schIntents : List String :=
  ["scholarship_personalized", "scholarship_type_selection", "scholarship_query"]

/-- Outcome of the outbound Gemini HTTP call. -/
inductive Upstream where
  | ok (text : String)
  | noCandidates
  | httpError (code : Nat)
  | timeout
deriving Repr, DecidableEq

/-- External circumstances of one request. -/
structure ChatEnv where
  apiKey : Bool
  commitFails : Bool
  upstream : Upstream
deriving Repr, DecidableEq

/-- Result of one `/chat` request: HTTP status, resulting stored row,
and the successful generated answer, if any. -/
structure ChatOut where
  status : Nat
  db : Option StoredUser
  answer : Option String
deriving Repr, DecidableEq

/-- Python `chat_with_gemini` (main.py lines 597-723), as a state transformer.
Control flow follows the source: validation (400), then the DB section
for scholarship intents with rollback-and-500 on commit failure, then
the `GEMINI_API_KEY` check (500), then the outbound call with its
outcome mapping (200 with `format_response`d text / 500 / propagated
status / 504). -/
def chat (env : ChatEnv) (db : Option StoredUser) (q : String) : ChatOut :=
  if (validate_input q).1 = false then ⟨400, db, none⟩
  else
    let s : String := (validate_input q).2
    let d : Details := extract_user_details s
    let t : String := analyze_query_type s
    if t ∈ schIntents ∧ env.commitFails then ⟨500, db, none⟩
    else
      let db1 : Option StoredUser :=
        if t ∈ schIntents then some (upsertUser db s d) else db
      if env.apiKey = false then ⟨500, db1, none⟩
      else
        match env.upstream with
        | .ok txt => ⟨200, db1, some (format_response txt)⟩
        | .noCandidates => ⟨500, db1, none⟩
        | .httpError c => ⟨c, db1, none⟩
        | .timeout => ⟨504, db1, none⟩

/-! ## Concrete inputs, environments and auxiliary definitions for the
claim theorems -/

def c1profile : StoredUser :=
  ⟨"earlier query", some "sc", none, none, none, none, none, none, none, none, none⟩

def c1details : Details :=
  ⟨none, none, some "female", none, none, none, none, none, none, some "government"⟩

def c2input : String :=
  "I am an SC girl with 1.5 lakh income looking for government scholarships"

def c4input : String := "a\n \n \nb"

def c6env : ChatEnv := ⟨true, false, .ok "Some scholarships."⟩

def c6long : String := ⟨List.replicate 1001 'a'⟩

def c7env : ChatEnv := ⟨true, true, .ok "Here are some scholarships."⟩

def c7row : StoredUser :=
  ⟨"old", some "obc", none, none, none, none, none, none, none, none, some "private"⟩

def c8env : ChatEnv := ⟨true, false, .ok "Here are some scholarships."⟩

def c8row : StoredUser :=
  ⟨"earlier", some "general", none, none, none, none, none, none, none, none, none⟩

def c9env : ChatEnv := ⟨false, false, .ok "unused"⟩

/-- The non-whitespace content of a text. -/
def keepNonWs (l : List Char) : List Char := l.filter (fun c => !isWs c)

/-- Does a string end in `?` or `!`? -/
def endsQorBang (s : String) : Bool :=
  match s.data.getLast? with
  | some '?' => true
  | some '!' => true
  | _ => false

/-- An occurrence of `1` as a whole token, in the sense of the regex
`\b1\b`: the character before it (if any) and after it (if any) are not
word characters. -/
def hasTokenOne (l : List Char) : Prop :=
  ∃ a b : List Char, l = a ++ '1' :: b ∧
    (∀ c, a.getLast? = some c → isWordChar c = false) ∧
    (∀ c, b.head? = some c → isWordChar c = false)

/-! ## Claim theorems -/

/-- C1: Profile merge is fill-missing with overwrite-on-concrete.  For
every stored profile, query and extraction result: a field the new
extraction leaves `none` keeps its stored value, and a field with a
concrete extracted value is overwritten with exactly that value — for
each of the ten profile fields. -/
theorem C1_merge_fill_missing (u : StoredUser) (q : String) (d : Details) :
    ((d.caste = none → (mergeUser u q d).caste = u.caste) ∧
      ∀ v, d.caste = some v → (mergeUser u q d).caste = some v) ∧
    ((d.income = none → (mergeUser u q d).income = u.income) ∧
      ∀ v, d.income = some v → (mergeUser u q d).income = some v) ∧
    ((d.gender = none → (mergeUser u q d).gender = u.gender) ∧
      ∀ v, d.gender = some v → (mergeUser u q d).gender = some v) ∧
    ((d.course_level = none → (mergeUser u q d).course_level = u.course_level) ∧
      ∀ v, d.course_level = some v → (mergeUser u q d).course_level = some v) ∧
    ((d.is_hostel = none → (mergeUser u q d).is_hostel = u.is_hostel) ∧
      ∀ v, d.is_hostel = some v → (mergeUser u q d).is_hostel = some v) ∧
    ((d.cgpa = none → (mergeUser u q d).cgpa = u.cgpa) ∧
      ∀ v, d.cgpa = some v → (mergeUser u q d).cgpa = some v) ∧
    ((d.is_minority = none → (mergeUser u q d).is_minority = u.is_minority) ∧
      ∀ v, d.is_minority = some v → (mergeUser u q d).is_minority = some v) ∧
    ((d.has_disability = none → (mergeUser u q d).has_disability = u.has_disability) ∧
      ∀ v, d.has_disability = some v → (mergeUser u q d).has_disability = some v) ∧
    ((d.ex_serviceman_parent = none →
        (mergeUser u q d).ex_serviceman_parent = u.ex_serviceman_parent) ∧
      ∀ v, d.ex_serviceman_parent = some v →
        (mergeUser u q d).ex_serviceman_parent = some v) ∧
    ((d.scholarship_type = none →
        (mergeUser u q d).scholarship_type = u.scholarship_type) ∧
      ∀ v, d.scholarship_type = some v →
        (mergeUser u q d).scholarship_type = some v) := by
  refine ⟨⟨?_, ?_⟩, ⟨?_, ?_⟩, ⟨?_, ?_⟩, ⟨?_, ?_⟩, ⟨?_, ?_⟩, ⟨?_, ?_⟩, ⟨?_, ?_⟩,
    ⟨?_, ?_⟩, ⟨?_, ?_⟩, ⟨?_, ?_⟩⟩ <;>
    first
      | (intro h; simp [mergeUser, updField, h])
      | (intro v h; simp [mergeUser, updField, h])

/-- Witness for C1 at a concrete profile and extraction: the known caste
survives an unknown extraction, and concrete extractions overwrite. -/
theorem C1_merge_witness :
    (mergeUser c1profile "new query" c1details).caste = some "sc" ∧
    (mergeUser c1profile "new query" c1details).gender = some "female" ∧
    (mergeUser c1profile "new query" c1details).scholarship_type = some "government" :=
  ⟨((C1_merge_fill_missing c1profile "new query" c1details).1.1 rfl).trans rfl,
   (C1_merge_fill_missing c1profile "new query" c1details).2.2.1.2 "female" rfl,
   (C1_merge_fill_missing c1profile "new query"
     c1details).2.2.2.2.2.2.2.2.2.2 "government" rfl⟩

/-- C2 counterexample: on the scenario sentence the extractor does NOT
return income = "1.5 lakh" — the income pattern requires the keyword
`income` to come before the amount, and here the amount precedes it, so
the extraction yields no income at all. -/
theorem C2_counterexample :
    ¬ (extract_user_details c2input).income = some "1.5 lakh" := by decide

/-- C2 amended: caste, gender and scholarship type are extracted as the
claim states and the intent is `scholarship_type_selection` (one of the
claim's two admissible intents), but income is `None`/unknown. -/
theorem C2_amended_extraction :
    (extract_user_details c2input).caste = some "sc" ∧
    (extract_user_details c2input).gender = some "female" ∧
    (extract_user_details c2input).scholarship_type = some "government" ∧
    (extract_user_details c2input).income = none ∧
    analyze_query_type c2input = "scholarship_type_selection" := by decide

/-- C3: the single word "government" is classified as
`scholarship_type_selection`: its boosted score is 10.125 (= 81/8),
every other intent scores strictly lower, and `casual` gets exactly its
flat short-utterance bonus of 1.0. -/
theorem C3_single_word_government :
    analyze_query_type "government" = "scholarship_type_selection" ∧
    (intentScores "government").find?
        (fun p => p.1 = "scholarship_type_selection")
      = some ("scholarship_type_selection", ⟨1012500, 100000⟩) ∧
    (intentScores "government").find? (fun p => p.1 = "casual")
      = some ("casual", ⟨10000, 10000⟩) ∧
    qVal ⟨1012500, 100000⟩ = 81 / 8 ∧ qVal ⟨10000, 10000⟩ = 1 ∧
    ((intentScores "government").filter
        (fun p => p.1 ≠ "scholarship_type_selection")).all
      (fun p => qlt p.2 ⟨1012500, 100000⟩) = true := by
  refine ⟨by decide, by decide, by decide, ?_, ?_, by decide⟩ <;> norm_num [qVal]

/-- C4 counterexample: `format_response` is not idempotent.  On
"a\n \n \nb" the first pass right-trims the whitespace-only lines,
creating a run of three newlines that only a second pass collapses. -/
theorem C4_counterexample :
    format_response (format_response c4input) ≠ format_response c4input := by decide

/-- C4 amended: the post-processor is idempotent on already-clean text:
whenever it leaves a string unchanged, a second application changes
nothing either. -/
theorem C4_idempotent_on_clean (s : String) (h : format_response s = s) :
    format_response (format_response s) = format_response s := by simp only [h]

/-- Witness for C4 at a concrete clean string. -/
theorem C4_witness :
    format_response "Need more info!" = "Need more info!" ∧
    format_response (format_response "Need more info!")
      = format_response "Need more info!" :=
  ⟨by decide, C4_idempotent_on_clean "Need more info!" (by decide)⟩

/-- C6: `/chat` input-length validation.  A query whose trimmed length is
under 3 fails validation and gets a 400 in every environment and store
state; a query longer than 1000 characters likewise; a query with
trimmed length at least 3 and raw length at most 1000 passes validation,
yielding the trimmed query. -/
theorem C6_input_length_validation (q : String) :
    ((stripL q.data).length < 3 →
      (validate_input q).1 = false ∧
        ∀ env db, (chat env db q).status = 400) ∧
    (q.data.length > 1000 →
      (validate_input q).1 = false ∧
        ∀ env db, (chat env db q).status = 400) ∧
    (3 ≤ (stripL q.data).length ∧ q.data.length ≤ 1000 →
      validate_input q = (true, ⟨stripL q.data⟩)) := by
  have hstat : (validate_input q).1 = false →
      ∀ env db, (chat env db q).status = 400 := by
    intro h env db
    simp [chat, h]
  have hlt : (stripL q.data).length < 3 → (validate_input q).1 = false := by
    intro h
    unfold validate_input
    split_ifs <;> rfl
  have hlong : q.data.length > 1000 → (validate_input q).1 = false := by
    intro h
    unfold validate_input
    split_ifs <;> rfl
  have hvalid : 3 ≤ (stripL q.data).length ∧ q.data.length ≤ 1000 →
      validate_input q = (true, ⟨stripL q.data⟩) := by
    rintro ⟨ha, hb⟩
    unfold validate_input
    split_ifs with h1 h2 h3
    · rcases h1 with h1 | h1
      · rw [h1] at ha
        simp [stripL, lstripL, rstripL] at ha
      · rw [h1] at ha
        simp at ha
    · omega
    · omega
    · rfl
  exact ⟨fun h => ⟨hlt h, hstat (hlt h)⟩,
    fun h => ⟨hlong h, hstat (hlong h)⟩, hvalid⟩

/-- Witness for C6: "ab" (trimmed length 2) is rejected with 400, a
1001-character query is rejected with 400, and "government" passes
validation. -/
theorem C6_witness :
    ((validate_input "ab").1 = false ∧ (chat c6env none "ab").status = 400) ∧
    ((validate_input c6long).1 = false ∧
      (chat c6env none c6long).status = 400) ∧
    validate_input "government" = (true, "government") :=
  ⟨⟨((C6_input_length_validation "ab").1 (by decide)).1,
    ((C6_input_length_validation "ab").1 (by decide)).2 c6env none⟩,
   ⟨((C6_input_length_validation c6long).2.1 (by decide)).1,
    ((C6_input_length_validation c6long).2.1 (by decide)).2 c6env none⟩,
   ((C6_input_length_validation "government").2.2 ⟨by decide, by decide⟩).trans
     (by decide)⟩

/-- C7 counterexample: when the profile commit fails on the query
"government" (a scholarship intent, successfully extracted and
classified), `/chat` returns 500 with the store rolled back — but it
does NOT still attempt to answer the user: the handler returns the
storage error immediately and no answer is produced, contradicting the
claim's third conjunct. -/
theorem C7_counterexample :
    chat c7env none "government" = ⟨500, none, none⟩ := by decide

/-- C7 amended: on a profile write failure during a scholarship-intent
request, `/chat` returns 500 and the stored profile is unchanged
(rollback), and the response is the storage error alone — no answer is
attempted. -/
theorem C7_amended_commit_failure (env : ChatEnv) (db : Option StoredUser)
    (q : String) (hc : env.commitFails = true)
    (hv : (validate_input q).1 = true)
    (ht : analyze_query_type (validate_input q).2 ∈ schIntents) :
    chat env db q = ⟨500, db, none⟩ := by
  simp [chat, hv, hc, ht]

/-- Witness for C7 at a concrete failing commit with an existing row. -/
theorem C7_witness :
    c7env.commitFails = true ∧ (validate_input "government").1 = true ∧
    analyze_query_type (validate_input "government").2 ∈ schIntents ∧
    chat c7env (some c7row) "government" = ⟨500, some c7row, none⟩ :=
  ⟨rfl, by decide, by decide,
   C7_amended_commit_failure c7env (some c7row) "government" rfl (by decide)
     (by decide)⟩

/-- C8 counterexample: "hi girl" is a valid first request whose
extraction yields a non-null field (gender = female), yet its intent is
`greeting`, so the route touches the store not at all: no record is
created on a first request, and an existing record is not mutated —
contradicting the claim's unconditional create/mutate lifecycle. -/
theorem C8_counterexample :
    (extract_user_details "hi girl").gender = some "female" ∧
    analyze_query_type "hi girl" = "greeting" ∧
    chat c8env none "hi girl" = ⟨200, none, some "Here are some scholarships."⟩ ∧
    chat c8env (some c8row) "hi girl"
      = ⟨200, some c8row, some "Here are some scholarships."⟩ := by decide

/-- C8 amended: the lifecycle is scoped to the three scholarship
intents.  For a valid request with a scholarship intent and a working
commit, the stored row becomes exactly the upsert (created when absent,
merged when present) whether or not any field was extracted; for any
other intent, and for invalid requests, the store is untouched; and the
service never deletes an existing record. -/
theorem C8_amended_lifecycle (env : ChatEnv) (db : Option StoredUser) (q : String) :
    ((validate_input q).1 = true →
      analyze_query_type (validate_input q).2 ∈ schIntents →
      env.commitFails = false →
      (chat env db q).db
        = some (upsertUser db (validate_input q).2
            (extract_user_details (validate_input q).2))) ∧
    ((validate_input q).1 = true →
      analyze_query_type (validate_input q).2 ∉ schIntents →
      (chat env db q).db = db) ∧
    ((validate_input q).1 = false → (chat env db q).db = db) ∧
    (db ≠ none → (chat env db q).db ≠ none) := by
  have h1 : (validate_input q).1 = true →
      analyze_query_type (validate_input q).2 ∈ schIntents →
      env.commitFails = false →
      (chat env db q).db
        = some (upsertUser db (validate_input q).2
            (extract_user_details (validate_input q).2)) := by
    intro hv ht hc
    obtain ⟨ak, cf, up⟩ := env
    cases ak <;> cases up <;> simp_all [chat]
  have h2 : (validate_input q).1 = true →
      analyze_query_type (validate_input q).2 ∉ schIntents →
      (chat env db q).db = db := by
    intro hv ht
    obtain ⟨ak, cf, up⟩ := env
    cases ak <;> cases up <;> simp_all [chat]
  have h3 : (validate_input q).1 = false → (chat env db q).db = db := by
    intro hv
    simp [chat, hv]
  refine ⟨h1, h2, h3, fun hd => ?_⟩
  by_cases hv : (validate_input q).1 = false
  · rw [h3 hv]
    exact hd
  · have hv' : (validate_input q).1 = true := by
      simpa using hv
    by_cases ht : analyze_query_type (validate_input q).2 ∈ schIntents
    · by_cases hc : env.commitFails
      · have : chat env db q = ⟨500, db, none⟩ :=
          by simp [chat, hv', ht, hc]
        rw [this]
        exact hd
      · rw [h1 hv' ht (by simpa using hc)]
        simp
    · rw [h2 hv' ht]
      exact hd

/-- Witness for C8 at concrete requests: a scholarship-intent request
creates the row, a greeting request leaves the store untouched, an
invalid request leaves it untouched, and an existing record survives. -/
theorem C8_witness :
    (chat c8env none "government").db
      = some (upsertUser none (validate_input "government").2
          (extract_user_details (validate_input "government").2)) ∧
    (chat c8env (some c8row) "hi girl").db = some c8row ∧
    (chat c8env (some c8row) "ab").db = some c8row ∧
    (chat c8env (some c8row) "government").db ≠ none :=
  ⟨(C8_amended_lifecycle c8env none "government").1 (by decide) (by decide) rfl,
   (C8_amended_lifecycle c8env (some c8row) "hi girl").2.1 (by decide) (by decide),
   (C8_amended_lifecycle c8env (some c8row) "ab").2.2.1 (by decide),
   (C8_amended_lifecycle c8env (some c8row) "government").2.2.2 (by simp)⟩

/-- C9: when `GEMINI_API_KEY` is not configured, a valid request with a
scholarship intent still performs and commits the profile create/update
before `/chat` returns the 500 configuration error: the resulting store
holds exactly the upsert even though the request fails. -/
theorem C9_no_key_still_commits (env : ChatEnv) (db : Option StoredUser)
    (q : String) (hk : env.apiKey = false) (hc : env.commitFails = false)
    (hv : (validate_input q).1 = true)
    (ht : analyze_query_type (validate_input q).2 ∈ schIntents) :
    chat env db q
      = ⟨500, some (upsertUser db (validate_input q).2
          (extract_user_details (validate_input q).2)), none⟩ := by
  simp [chat, hv, ht, hc, hk]

/-- Witness for C9: with no key and an empty store, "government" returns
500 yet the store now holds a record (it changed from `none`). -/
theorem C9_witness :
    chat c9env none "government"
      = ⟨500, some (upsertUser none (validate_input "government").2
          (extract_user_details (validate_input "government").2)), none⟩ ∧
    (chat c9env none "government").db ≠ none := by
  have h := C9_no_key_still_commits c9env none "government" rfl rfl (by decide)
    (by decide)
  refine ⟨h, ?_⟩
  rw [h]
  simp


/-! ## Helper lemmas: the post-processor never touches non-whitespace
content (modulo the `·` → `•` bullet normalisation) -/

theorem isWs_nl : isWs '\n' = true := by decide

theorem keepNonWs_append (a b : List Char) :
    keepNonWs (a ++ b) = keepNonWs a ++ keepNonWs b := List.filter_append ..

theorem keepNonWs_allWs {l : List Char} (h : ∀ c ∈ l, isWs c = true) :
    keepNonWs l = [] := by
  induction l with
  | nil => rfl
  | cons c rest ih =>
    have hc : (!isWs c) = false := by rw [h c (by simp)]; rfl
    have hr := ih (fun d hd => h d (by simp [hd]))
    rw [keepNonWs, List.filter_cons, hc]
    simpa [keepNonWs] using hr

theorem keepNonWs_replicate_nl (n : Nat) :
    keepNonWs (List.replicate n '\n') = [] :=
  keepNonWs_allWs (fun c hc => by
    rw [List.eq_of_mem_replicate hc]; decide)

theorem keepNonWs_replicate_hash (n : Nat) :
    keepNonWs (List.replicate n '#') = List.replicate n '#' := by
  induction n with
  | zero => rfl
  | succ k ih =>
    have h1 : (!isWs '#') = true := by decide
    rw [List.replicate_succ, keepNonWs, List.filter_cons]
    rw [keepNonWs] at ih
    simp [h1, ih, List.replicate_succ]

theorem mem_takeWhile_ws {c : Char} {l : List Char}
    (h : c ∈ l.takeWhile isWs) : isWs c = true := by
  induction l with
  | nil => simp [List.takeWhile] at h
  | cons d rest ih =>
    rw [List.takeWhile_cons] at h
    by_cases hd : isWs d
    · simp [hd] at h
      rcases h with h | h
      · rwa [h]
      · exact ih h
    · simp [hd] at h

theorem keepNonWs_collapseGo (l : List Char) : ∀ n : Nat,
    keepNonWs (collapseGo n l) = keepNonWs l := by
  induction l with
  | nil =>
    intro n
    show keepNonWs (List.replicate (min n 2) '\n') = keepNonWs []
    rw [keepNonWs_replicate_nl]
    rfl
  | cons c rest ih =>
    intro n
    by_cases hc : c = '\n'
    · subst hc
      show keepNonWs (collapseGo (n + 1) rest) = keepNonWs ('\n' :: rest)
      rw [ih]
      rw [keepNonWs, keepNonWs, List.filter_cons]
      simp [isWs_nl]
    · simp only [collapseGo, hc, if_false]
      rw [keepNonWs_append, keepNonWs_replicate_nl, List.nil_append]
      rw [keepNonWs, keepNonWs, List.filter_cons, List.filter_cons]
      have := ih 0
      rw [keepNonWs, keepNonWs] at this
      rw [this]

theorem keepNonWs_takeWhile_ws (l : List Char) :
    keepNonWs (l.takeWhile isWs) = [] :=
  keepNonWs_allWs (fun _ hc => mem_takeWhile_ws hc)

theorem keepNonWs_dropWhile_ws (l : List Char) :
    keepNonWs (l.dropWhile isWs) = keepNonWs l := by
  conv_rhs => rw [← List.takeWhile_append_dropWhile (p := isWs) (l := l)]
  rw [keepNonWs_append, keepNonWs_takeWhile_ws, List.nil_append]

theorem wsG2_keepNonWs {r g2 rem : List Char}
    (h : wsG2 r = some (g2, rem)) :
    keepNonWs g2 ++ keepNonWs rem = keepNonWs r := by
  unfold wsG2 at h
  cases hdrop : r.dropWhile isWs with
  | cons c rest2 =>
    rw [hdrop] at h
    injection h with h
    injection h with h1 h2
    subst h1
    subst h2
    rw [← keepNonWs_append, List.takeWhile_append_dropWhile,
      ← hdrop, keepNonWs_dropWhile_ws]
  | nil =>
    rw [hdrop] at h
    simp only at h
    cases hlast : ((r.takeWhile isWs).reverse.dropWhile
        (fun d => d = '\n')).reverse.getLast? with
    | none => rw [hlast] at h; exact absurd h (by simp)
    | some c =>
      rw [hlast] at h
      injection h with h
      injection h with h1 h2
      subst h1
      subst h2
      have hcw : isWs c = true := by
        have hmem : c ∈ ((r.takeWhile isWs).reverse.dropWhile
            (fun d => d = '\n')).reverse := by
          exact List.mem_of_getLast?_eq_some hlast
        rw [List.mem_reverse] at hmem
        have hmem2 : c ∈ (r.takeWhile isWs).reverse :=
          (List.dropWhile_sublist _).mem hmem
        rw [List.mem_reverse] at hmem2
        exact mem_takeWhile_ws hmem2
      have h1 : keepNonWs [c] = [] := by
        simp [keepNonWs, List.filter_cons, hcw]
      rw [h1, keepNonWs_replicate_nl, ← keepNonWs_dropWhile_ws r, hdrop]
      rfl

theorem take_of_takeWhile_hash : ∀ (l : List Char) (k : Nat),
    k ≤ (l.takeWhile (fun c => c = '#')).length →
    l.take k = List.replicate k '#' := by
  intro l
  induction l with
  | nil =>
    intro k hk
    simp only [List.takeWhile_nil, List.length_nil, Nat.le_zero] at hk
    subst hk
    rfl
  | cons c rest ih =>
    intro k hk
    by_cases hc : c = '#'
    · cases k with
      | zero => rfl
      | succ k2 =>
        rw [List.takeWhile_cons] at hk
        simp [hc] at hk
        rw [List.take_succ_cons, ih k2 hk, hc, List.replicate_succ]
    · rw [List.takeWhile_cons] at hk
      simp [hc] at hk
      subst hk
      rfl

theorem keepNonWs_space_cons (g : List Char) :
    keepNonWs (' ' :: g) = keepNonWs g := by
  have h1 : (!isWs ' ') = false := by decide
  rw [keepNonWs, List.filter_cons]
  simp only [h1, Bool.false_eq_true, if_false]
  rfl

theorem tryHeading_keepNonWs {l rep rem : List Char}
    (h : tryHeading l = some (rep, rem)) :
    keepNonWs (rep ++ rem) = keepNonWs l := by
  unfold tryHeading at h
  simp only [] at h
  set k := min (l.takeWhile (fun c => c = '#')).length 6 with hkdef
  have hk6 : k ≤ (l.takeWhile (fun c => c = '#')).length := Nat.min_le_left _ _
  have hsplit : l = List.replicate k '#' ++ l.drop k := by
    conv_lhs => rw [← List.take_append_drop k l]
    rw [take_of_takeWhile_hash l k hk6]
  cases hw : wsG2 (l.drop k) with
  | some pr =>
    obtain ⟨g2, rem2⟩ := pr
    rw [hw] at h
    injection h with h
    injection h with h1 h2
    subst h1
    subst h2
    conv_rhs => rw [hsplit]
    simp only [keepNonWs_append, keepNonWs_space_cons, List.append_assoc]
    rw [wsG2_keepNonWs hw]
  | none =>
    rw [hw] at h
    by_cases h2k : 2 ≤ k
    · rw [if_pos h2k] at h
      injection h with h
      injection h with h1 h2
      subst h1
      subst h2
      conv_rhs => rw [hsplit]
      simp only [keepNonWs_append, keepNonWs_replicate_hash,
        show keepNonWs [' ', '#'] = ['#'] from by decide, List.append_assoc]
      rw [show List.replicate (k - 1) '#' ++ (['#'] ++ keepNonWs (l.drop k))
          = (List.replicate (k - 1) '#' ++ ['#']) ++ keepNonWs (l.drop k) from
        (List.append_assoc _ _ _).symm]
      rw [← List.replicate_succ']
      have hk1 : k - 1 + 1 = k := by omega
      rw [hk1]
    · rw [if_neg h2k] at h
      cases h

theorem keepNonWs_cons_eq {c : Char} {a b : List Char}
    (h : keepNonWs a = keepNonWs b) :
    keepNonWs (c :: a) = keepNonWs (c :: b) := by
  rw [keepNonWs, keepNonWs, List.filter_cons, List.filter_cons]
  rw [show List.filter (fun c => !isWs c) a = keepNonWs a from rfl]
  rw [show List.filter (fun c => !isWs c) b = keepNonWs b from rfl]
  rw [h]

theorem keepNonWs_headingGo : ∀ (fuel : Nat) (l : List Char),
    keepNonWs (headingGo fuel l) = keepNonWs l := by
  intro fuel
  induction fuel with
  | zero => intro l; simp [headingGo]
  | succ f ih =>
    intro l
    cases l with
    | nil => simp [headingGo]
    | cons c rest =>
      by_cases hc : c = '#'
      · simp only [headingGo, if_pos hc]
        cases htr : tryHeading (c :: rest) with
        | none => simp only [htr]; exact keepNonWs_cons_eq (ih rest)
        | some pr =>
          obtain ⟨rep, rem⟩ := pr
          simp only [htr]
          rw [keepNonWs_append, ih rem,
            show keepNonWs rep ++ keepNonWs rem = keepNonWs (rep ++ rem) from
              (keepNonWs_append rep rem).symm,
            tryHeading_keepNonWs htr]
      · simp only [headingGo, if_neg hc]
        exact keepNonWs_cons_eq (ih rest)

theorem tryBullet_decomp {l : List Char} {st : Bool} {rem : List Char}
    (hne : '·' ∉ l) (h : tryBullet l = some (st, rem)) :
    keepNonWs l = '•' :: keepNonWs rem ∧ ∀ d ∈ rem, d ∈ l := by
  unfold tryBullet at h
  cases hdrop : l.dropWhile isWs with
  | nil => rw [hdrop] at h; cases h
  | cons c rest =>
    simp only [hdrop] at h
    by_cases hb : (c = '•' || c = '·') = true
    · rw [if_pos hb] at h
      injection h with h
      injection h with h1 h2
      have hcl : c ∈ l := by
        have hmem : c ∈ l.dropWhile isWs := by rw [hdrop]; simp
        exact (List.dropWhile_sublist isWs).subset hmem
      have hcb : c = '•' := by
        simp only [Bool.or_eq_true, decide_eq_true_eq] at hb
        rcases hb with hb | hb
        · exact hb
        · exact absurd (hb ▸ hcl) hne
      constructor
      · rw [← keepNonWs_dropWhile_ws l, hdrop, hcb]
        rw [keepNonWs, List.filter_cons]
        simp only [show (!isWs '•') = true from by decide, if_true]
        rw [show List.filter (fun c => !isWs c) rest = keepNonWs rest from rfl]
        rw [← keepNonWs_dropWhile_ws rest, h2]
      · intro d hd
        rw [← h2] at hd
        have hd1 : d ∈ rest := (List.dropWhile_sublist isWs).subset hd
        have hd2 : d ∈ c :: rest := by simp [hd1]
        rw [← hdrop] at hd2
        exact (List.dropWhile_sublist isWs).subset hd2
    · rw [if_neg hb] at h
      cases h

theorem keepNonWs_bulletGo : ∀ (fuel : Nat) (st : Bool) (l : List Char),
    '·' ∉ l → keepNonWs (bulletGo fuel st l) = keepNonWs l := by
  intro fuel
  induction fuel with
  | zero => intro st l _; simp [bulletGo]
  | succ f ih =>
    intro st l hne
    cases l with
    | nil => simp [bulletGo]
    | cons c rest =>
      have hrest : '·' ∉ rest := fun hr => hne (by simp [hr])
      cases st with
      | false =>
        show keepNonWs (c :: bulletGo f (c = '\n') rest) = keepNonWs (c :: rest)
        exact keepNonWs_cons_eq (ih _ rest hrest)
      | true =>
        show keepNonWs (match tryBullet (c :: rest) with
          | some (st2, rem) => '•' :: ' ' :: bulletGo f st2 rem
          | none => c :: bulletGo f (c = '\n') rest) = keepNonWs (c :: rest)
        cases htr : tryBullet (c :: rest) with
        | none => simp only [htr]; exact keepNonWs_cons_eq (ih _ rest hrest)
        | some pr =>
          obtain ⟨st2, rem⟩ := pr
          simp only [htr]
          obtain ⟨he, hsub⟩ := tryBullet_decomp hne htr
          have hnerem : '·' ∉ rem := fun hr => hne (hsub _ hr)
          rw [he]
          rw [keepNonWs, List.filter_cons]
          simp only [show (!isWs '•') = true from by decide, if_true]
          rw [show List.filter (fun c => !isWs c) (' ' :: bulletGo f st2 rem)
              = keepNonWs (' ' :: bulletGo f st2 rem) from rfl]
          rw [keepNonWs_space_cons, ih st2 rem hnerem]

theorem keepNonWs_rstripGo : ∀ (l pend : List Char),
    (∀ c ∈ pend, isWs c = true) →
    keepNonWs (rstripGo pend l) = keepNonWs l := by
  intro l
  induction l with
  | nil => intro pend _; rfl
  | cons c rest ih =>
    intro pend hp
    by_cases hc : c = '\n'
    · simp only [rstripGo, if_pos hc]
      subst hc
      exact keepNonWs_cons_eq (ih [] (by simp))
    · by_cases hw : isWs c
      · simp only [rstripGo, if_neg hc, if_pos hw]
        rw [ih (pend ++ [c]) (by
          intro d hd
          rcases List.mem_append.mp hd with hd | hd
          · exact hp d hd
          · simp only [List.mem_singleton] at hd
            rw [hd]
            exact hw)]
        rw [keepNonWs, keepNonWs, List.filter_cons]
        simp [hw]
      · simp only [rstripGo, if_neg hc, if_neg hw]
        rw [keepNonWs_append, keepNonWs_allWs hp, List.nil_append]
        exact keepNonWs_cons_eq (ih [] (by simp))

theorem head?_dropWhile_ws (l : List Char) :
    (l.dropWhile isWs).head? = (keepNonWs l).head? := by
  induction l with
  | nil => rfl
  | cons c rest ih =>
    rw [List.dropWhile_cons]
    by_cases hw : isWs c
    · simp only [hw, if_true]
      rw [keepNonWs, List.filter_cons]
      simp only [hw, Bool.not_true, if_false]
      exact ih
    · simp only [hw, if_false]
      rw [keepNonWs, List.filter_cons]
      simp [hw]

theorem getLast?_stripL (l : List Char) :
    (stripL l).getLast? = (keepNonWs l).getLast? := by
  show (((l.dropWhile isWs).reverse.dropWhile isWs).reverse).getLast?
    = (keepNonWs l).getLast?
  rw [List.getLast?_eq_head?_reverse, List.reverse_reverse]
  rw [head?_dropWhile_ws]
  rw [show keepNonWs ((l.dropWhile isWs).reverse)
      = (keepNonWs (l.dropWhile isWs)).reverse from
    List.filter_reverse _ _]
  rw [List.head?_reverse]
  rw [keepNonWs_dropWhile_ws]

/-- C5 counterexample: `format_response` does not guarantee a terminal
question/exclamation mark and never appends a follow-up question: on
"hello" it returns "hello" unchanged, which ends in neither `?` nor `!`. -/
theorem C5_counterexample :
    format_response "hello" = "hello" ∧
    endsQorBang (format_response "hello") = false := by decide

/-- C5 amended: the post-processor performs only whitespace/markdown
cleanup and appends nothing.  For every input (without the alternate
bullet glyph `·`, which the bullet step rewrites to `•`), the last
non-whitespace character of the input is the last character of the
output; in particular the output ends with `?` or `!` exactly when the
cleaned input already does. -/
theorem C5_amended_last_char (s : String) (hnb : '·' ∉ s.data) (c : Char)
    (h : (keepNonWs s.data).getLast? = some c) :
    (format_response s).data.getLast? = some c := by
  have e0 : (format_response s).data
      = stripL (rstripLines (bulletSub (headingSub (collapseNl s.data)))) := rfl
  have e1 : keepNonWs (collapseNl s.data) = keepNonWs s.data :=
    keepNonWs_collapseGo s.data 0
  have e2 : keepNonWs (headingSub (collapseNl s.data))
      = keepNonWs (collapseNl s.data) := keepNonWs_headingGo _ _
  have hm : '·' ∉ headingSub (collapseNl s.data) := by
    intro hmem
    apply hnb
    have h1 : '·' ∈ keepNonWs (headingSub (collapseNl s.data)) :=
      List.mem_filter.mpr ⟨hmem, by decide⟩
    rw [e2, e1] at h1
    exact (List.mem_filter.mp h1).1
  have e3 : keepNonWs (bulletSub (headingSub (collapseNl s.data)))
      = keepNonWs (headingSub (collapseNl s.data)) :=
    keepNonWs_bulletGo _ _ _ hm
  have e4 : keepNonWs (rstripLines (bulletSub (headingSub (collapseNl s.data))))
      = keepNonWs (bulletSub (headingSub (collapseNl s.data))) :=
    keepNonWs_rstripGo _ [] (by simp)
  rw [e0, getLast?_stripL, e4, e3, e2, e1]
  exact h

/-- Witness for C5 at a concrete input whose cleaned text ends in `?`. -/
theorem C5_witness :
    ('·' ∉ ("Anything else?  " : String).data) ∧
    (keepNonWs ("Anything else?  " : String).data).getLast? = some '?' ∧
    (format_response "Anything else?  ").data.getLast? = some '?' :=
  ⟨by decide, by decide,
   C5_amended_last_char "Anything else?  " (by decide) '?' (by decide)⟩

/-! ## Helper lemmas for the scholarship-type token claim -/

theorem pyLower_nonword {c : Char} (h : isWordChar c = false) :
    pyLower c = c := by
  unfold pyLower
  cases hup : c.isUpper with
  | false => simp [hup]
  | true =>
    exfalso
    unfold isWordChar Char.isAlphanum Char.isAlpha at h
    rw [hup] at h
    simp at h

theorem hasTokenOne_map_pyLower {l : List Char} (h : hasTokenOne l) :
    hasTokenOne (l.map pyLower) := by
  obtain ⟨a, b, heq, hlast, hhead⟩ := h
  refine ⟨a.map pyLower, b.map pyLower, ?_, ?_, ?_⟩
  · rw [heq, List.map_append, List.map_cons]
    rfl
  · intro c hc
    rw [List.getLast?_map] at hc
    cases ha : a.getLast? with
    | none => rw [ha] at hc; cases hc
    | some d =>
      rw [ha] at hc
      have hd := hlast d ha
      have : c = d := by
        rw [show Option.map pyLower (some d) = some (pyLower d) from rfl,
          pyLower_nonword hd] at hc
        exact (Option.some.inj hc).symm
      rw [this]
      exact hd
  · intro c hc
    rw [List.head?_map] at hc
    cases hb : b.head? with
    | none => rw [hb] at hc; cases hc
    | some d =>
      rw [hb] at hc
      have hd := hhead d hb
      have : c = d := by
        rw [show Option.map pyLower (some d) = some (pyLower d) from rfl,
          pyLower_nonword hd] at hc
        exact (Option.some.inj hc).symm
      rw [this]
      exact hd

/-- Dropping leading whitespace from `x ++ '1' :: y` keeps the token and
only shortens the prefix (preserving the non-word condition on its last
character). -/
theorem dropWhile_ws_token : ∀ (x y : List Char),
    (∀ c, x.getLast? = some c → isWordChar c = false) →
    ∃ x2, (x ++ '1' :: y).dropWhile isWs = x2 ++ '1' :: y ∧
      ∀ c, x2.getLast? = some c → isWordChar c = false := by
  intro x
  induction x with
  | nil =>
    intro y _
    refine ⟨[], ?_, ?_⟩
    · rw [List.nil_append, List.dropWhile_cons]
      simp [show isWs '1' = false from by decide]
    · intro c hc
      cases hc
  | cons d rest ih =>
    intro y hx
    by_cases hw : isWs d
    · have hr : ∀ c, rest.getLast? = some c → isWordChar c = false := by
        intro c hc
        apply hx
        cases rest with
        | nil => cases hc
        | cons e tl => rw [List.getLast?_cons_cons]; exact hc
      obtain ⟨x2, he, hp⟩ := ih y hr
      refine ⟨x2, ?_, hp⟩
      rw [List.cons_append, List.dropWhile_cons]
      simp only [hw, if_true]
      exact he
    · refine ⟨d :: rest, ?_, hx⟩
      rw [List.cons_append, List.dropWhile_cons]
      simp [hw]

theorem hasTokenOne_lstripL {l : List Char} (h : hasTokenOne l) :
    hasTokenOne (lstripL l) := by
  obtain ⟨a, b, heq, hlast, hhead⟩ := h
  obtain ⟨a2, he, hp⟩ := dropWhile_ws_token a b hlast
  refine ⟨a2, b, ?_, hp, hhead⟩
  show l.dropWhile isWs = a2 ++ '1' :: b
  rw [heq]
  exact he

theorem hasTokenOne_rstripL {l : List Char} (h : hasTokenOne l) :
    hasTokenOne (rstripL l) := by
  obtain ⟨a, b, heq, hlast, hhead⟩ := h
  have hbrev : ∀ c, b.reverse.getLast? = some c → isWordChar c = false := by
    intro c hc
    rw [List.getLast?_eq_head?_reverse, List.reverse_reverse] at hc
    exact hhead c hc
  obtain ⟨b2, he, hp⟩ := dropWhile_ws_token b.reverse a.reverse hbrev
  refine ⟨a, b2.reverse, ?_, hlast, ?_⟩
  · show ((l.reverse.dropWhile isWs).reverse) = a ++ '1' :: b2.reverse
    rw [heq]
    rw [show (a ++ '1' :: b).reverse = b.reverse ++ '1' :: a.reverse by
      rw [List.reverse_append, List.reverse_cons, List.append_assoc]
      rfl]
    rw [he]
    rw [List.reverse_append, List.reverse_cons, List.reverse_reverse,
      List.append_assoc]
    rfl
  · intro c hc
    rw [List.head?_reverse] at hc
    exact hp c hc

theorem hasTokenOne_normLS {s : String} (h : hasTokenOne s.data) :
    hasTokenOne (normLS s) :=
  hasTokenOne_rstripL (hasTokenOne_lstripL (hasTokenOne_map_pyLower h))

theorem matchEnds_bnd_self {s : List Char} {fuel i : Nat}
    (h : wordBoundary s i = true) :
    i ∈ matchEnds s fuel .bnd i := by
  simp [matchEnds, h]

theorem matchEnds_lit_mem {s : List Char} {fuel : Nat} {c : Char} {i : Nat}
    (h : s.get? i = some c) :
    (i + 1) ∈ matchEnds s fuel (.lit c) i := by
  have h2 : s[i]? = some c := by rw [← List.get?_eq_getElem?]; exact h
  simp [matchEnds, h2]

theorem matchEnds_seq_mem {s : List Char} {fuel : Nat} {a b : Rx} {i j k : Nat}
    (hj : j ∈ matchEnds s fuel a i) (hk : k ∈ matchEnds s fuel b j) :
    k ∈ matchEnds s fuel (.seq a b) i := by
  simp only [matchEnds, List.mem_flatten]
  exact ⟨matchEnds s fuel b j, List.mem_map.mpr ⟨j, hj, rfl⟩, hk⟩

theorem matchEnds_ralts_mem {s : List Char} {fuel : Nat} {rs : List Rx}
    {r : Rx} {i j : Nat} (hr : r ∈ rs) (hj : j ∈ matchEnds s fuel r i) :
    j ∈ matchEnds s fuel (ralts rs) i := by
  induction rs with
  | nil => cases hr
  | cons hd tl ih =>
    show j ∈ matchEnds s fuel (.alt hd (ralts tl)) i
    simp only [matchEnds, List.mem_append]
    rcases List.mem_cons.mp hr with hr | hr
    · left
      rw [← hr]
      exact hj
    · right
      exact ih hr

theorem searchB_of_matchEnds {s : List Char} {r : Rx} {i : Nat}
    (hi : i ≤ s.length) (h : matchEnds s (s.length + 1) r i ≠ []) :
    searchB s r = true := by
  unfold searchB
  rw [List.any_eq_true]
  refine ⟨i, List.mem_range.mpr (by omega), ?_⟩
  simpa using h

/-- The government pattern matches at a `\b1\b` token position. -/
theorem searchB_gov_of_token {n : List Char} (h : hasTokenOne n) :
    searchB n rxSchGov = true := by
  obtain ⟨a, b, heq, hlast, hhead⟩ := h
  subst heq
  have hget : (a ++ '1' :: b).get? a.length = some '1' := by
    rw [List.get?_eq_getElem?, List.getElem?_append_right (Nat.le_refl _)]
    simp
  have hword1 : isWordAt (a ++ '1' :: b) a.length = true := by
    unfold isWordAt
    rw [hget]
    decide
  have hb1 : wordBoundary (a ++ '1' :: b) a.length = true := by
    unfold wordBoundary
    rw [hword1]
    rcases Nat.eq_zero_or_pos a.length with hz | hpos
    · rw [if_pos hz]
      decide
    · rw [if_neg (by omega)]
      have hprev : isWordAt (a ++ '1' :: b) (a.length - 1) = false := by
        unfold isWordAt
        have hidx : (a ++ '1' :: b).get? (a.length - 1) = a.getLast? := by
          rw [List.get?_eq_getElem?,
            List.getElem?_append_left (by omega), List.getLast?_eq_getElem?]
        rw [hidx]
        cases hl : a.getLast? with
        | none => rfl
        | some d2 => exact hlast d2 hl
      rw [hprev]
      decide
  have hb2 : wordBoundary (a ++ '1' :: b) (a.length + 1) = true := by
    unfold wordBoundary
    rw [if_neg (by omega)]
    have hprev : isWordAt (a ++ '1' :: b) (a.length + 1 - 1) = true := by
      simpa using hword1
    rw [hprev]
    have hcur : isWordAt (a ++ '1' :: b) (a.length + 1) = false := by
      unfold isWordAt
      have hidx : (a ++ '1' :: b).get? (a.length + 1) = b.head? := by
        rw [List.get?_eq_getElem?, List.getElem?_append_right (by omega)]
        have h9 : a.length + 1 - a.length = 1 := by omega
        rw [h9, List.head?_eq_getElem?]
        simp
      rw [hidx]
      cases hh : b.head? with
      | none => rfl
      | some e => exact hhead e hh
    rw [hcur]
    decide
  set n := a ++ '1' :: b with hn
  set fuel := n.length + 1 with hfuel
  have h1 : a.length ∈ matchEnds n fuel .bnd a.length := matchEnds_bnd_self hb1
  have h2 : (a.length + 1) ∈ matchEnds n fuel (.lit '1') a.length :=
    matchEnds_lit_mem hget
  have h3 : (a.length + 1) ∈ matchEnds n fuel
      (ralts [rstr "government", rstr "govt", rstr "mahadbt", rstr "nsp",
        rstr "national scholarship", optNum "option" '1', optNum "choose" '1',
        optNum "select" '1', .lit '1']) a.length :=
    matchEnds_ralts_mem (by simp) h2
  have h4 : (a.length + 1) ∈ matchEnds n fuel .bnd (a.length + 1) :=
    matchEnds_bnd_self hb2
  have h5 : (a.length + 1) ∈ matchEnds n fuel rxSchGov a.length :=
    matchEnds_seq_mem h1 (matchEnds_seq_mem h3 h4)
  refine searchB_of_matchEnds ?_ (List.ne_nil_of_mem h5)
  rw [hn]
  simp only [List.length_append, List.length_cons]
  omega

/-- C10: the scholarship-type loop tries government, private, ngo,
college in that order with first match winning, and the government
pattern's last alternative `\b1\b` matches any whole token `1`
(including the `1` of a decimal like `1.5`).  Hence every input
containing `1` as a whole token gets scholarshipType = government. -/
theorem C10_token_one_yields_government (s : String)
    (h : hasTokenOne s.data) :
    (extract_user_details s).scholarship_type = some "government" := by
  have h2 : hasTokenOne (normLS s) := hasTokenOne_normLS h
  have h3 : searchB (normLS s) rxSchGov = true := searchB_gov_of_token h2
  show schTypeOf (normLS s) = some "government"
  unfold schTypeOf
  rw [if_pos h3]

/-- Witness for C10: "private 1" contains `1` as a whole token, and the
extractor returns government (not private), because the government
pattern is tried first and its `\b1\b` alternative matches. -/
theorem C10_witness :
    hasTokenOne ("private 1" : String).data ∧
    (extract_user_details "private 1").scholarship_type = some "government" := by
  have ht : hasTokenOne ("private 1" : String).data := by
    refine ⟨"private ".data, [], by rfl, ?_, ?_⟩
    · intro c hc
      have h2 : ("private " : String).data.getLast? = some ' ' := by decide
      rw [h2] at hc
      rw [← Option.some.inj hc]
      decide
    · intro c hc
      cases hc
  exact ⟨ht, C10_token_one_yields_government "private 1" ht⟩
